import Mathlib

/-!
Verification of the decision-tree processing core (`src/decisionTree.ts`).

The embedding translates the TypeScript source into Lean:

* `JValue` models the JavaScript values that flow through the factory: wire
  JSON nodes plus `undefined` (which property access on a plain object can
  produce).  JS numbers are modelled as `Int` (no claim depends on
  non-integral or NaN arithmetic; the spots where JS would see `NaN` are
  modelled through `toNumber` returning `none`).
* `jsTruthy`, `jsToString`, `toNumber`, `getProp`, `propAccess` model the
  JavaScript coercions the source relies on (`!json`, template/key coercion,
  `for (i = 0; i < n; i++)` bounds, property reads, and the `TypeError`
  raised when reading a property of `undefined`/`null`).
* `Action` is the closed set of classes registered in the source
  (`SendSmsAction`, `SendEmailAction`, `ConditionAction`, `LoopAction`,
  `SequenceAction`), with each field holding the raw value the constructor
  receives.
* `createAction` embeds `ActionFactory.createAction` together with the five
  registered factory closures (registry lookup is modelled at the level of
  the TypeScript index-signature type: the five `ActionFactory.register`
  calls and `undefined` for every other key).
* `execute` embeds the `execute` methods as a trace semantics: every
  `console.log`/`console.error` call and simulated delivery becomes one
  `Event`.  The condition-expression evaluator (`new Function` + call in the
  source) is an external collaborator and is passed in as a parameter
  `evalE`; `evalE e ctx = none` models the evaluation throwing, `some v`
  models it returning the value `v` (which the source then coerces with
  `Boolean`).
* `processDecisionTree` embeds `DecisionTreeService.processDecisionTree`,
  whose `try`/`catch` turns any thrown deserialization error into a single
  `console.error` report.
-/

namespace DecisionTree

/-- JavaScript values reaching the factory and the actions: JSON data plus
`undefined`. -/
inductive JValue where
  | undefined : JValue
  | null : JValue
  | bool : Bool → JValue
  | num : Int → JValue
  | str : String → JValue
  | arr : List JValue → JValue
  | obj : List (String × JValue) → JValue

/-- Errors thrown during `ActionFactory.createAction`: the two explicit
`throw new Error(...)` sites of the source keep their messages, and
`typeError` models the native `TypeError` raised by JavaScript when a
factory reads a property of `undefined`/`null` (for example
`json.params.phone` when `params` is missing). -/
inductive DTError where
  | malformedNode : String → DTError
  | unknownActionType : String → DTError
  | typeError : String → DTError

/-- First matching field of a JS object, `undefined` when the key is absent
(object literals in the wire format have unique keys). -/
def lookupField : List (String × JValue) → String → JValue
  | [], _ => .undefined
  | (k, v) :: rest, key => if k == key then v else lookupField rest key

/-- Property read `v[k]` on values where JavaScript does not throw:
yields the field of an object and `undefined` otherwise. -/
def getProp : JValue → String → JValue
  | .obj fs, k => lookupField fs k
  | _, _ => .undefined

/-- Property read `v[k]` at the source positions where `v` may be
`undefined`/`null`, in which case JavaScript throws a `TypeError`. -/
def propAccess (v : JValue) (k : String) : Except DTError JValue :=
  match v with
  | .undefined => .error (.typeError ("Cannot read properties of undefined (reading " ++ k ++ ")"))
  | .null => .error (.typeError ("Cannot read properties of null (reading " ++ k ++ ")"))
  | _ => .ok (getProp v k)

/-- JavaScript truthiness (`!v`, `v ? _ : _`, `Boolean(v)`).  `num` carries
an `Int`, so the only falsy number is `0` (`NaN` does not arise in the
modelled fragment). -/
def jsTruthy : JValue → Bool
  | .undefined => false
  | .null => false
  | .bool b => b
  | .num n => n != 0
  | .str s => s != ""
  | .arr _ => true
  | .obj _ => true

/-- JavaScript string coercion `String(v)`, used by the registry lookup
`registry[json.type]` to turn the key into a string.  Arrays join their
elements with commas and plain objects print as `[object Object]`, as in
JavaScript. -/
def jsToString : JValue → String
  | .undefined => "undefined"
  | .null => "null"
  | .bool true => "true"
  | .bool false => "false"
  | .num n => toString n
  | .str s => s
  | .arr xs => String.intercalate "," (xs.attach.map (fun x => jsToString x.1))
  | .obj _ => "[object Object]"
decreasing_by
  have := List.sizeOf_lt_of_mem x.2
  simp only [JValue.arr.sizeOf_spec]
  omega

/-- JavaScript numeric coercion as used by the loop bound comparison
`i < this.iterations`; `none` stands for `NaN` (so the comparison is
`false`).  String parsing is approximated by `String.toInt?` (with the
empty string coercing to `0` as in JavaScript); arrays are approximated as
`NaN`, which no claim exercises. -/
def toNumber : JValue → Option Int
  | .undefined => none
  | .null => some 0
  | .bool b => some (if b then 1 else 0)
  | .num n => some n
  | .str s => if s = "" then some 0 else s.toInt?
  | .arr _ => none
  | .obj _ => none

/-- The in-memory action classes of the source.  Each field holds exactly
the value the TypeScript constructor receives (the factories copy raw JSON
fields without validation, so the fields are `JValue`s). -/
inductive Action where
  | sendSms : JValue → Action
  | sendEmail : JValue → JValue → Action
  | condition : JValue → Action → Option Action → Action
  | loop : JValue → Action → Action
  | sequence : List Action → Action

mutual

/-- `toJSON` of each action class, translated clause by clause from the
source (a missing `falseAction` serializes the `undefined` field the object
literal carries). -/
def Action.toJSON : Action → JValue
  | .sendSms phone => .obj [("type", .str "send_sms"), ("params", .obj [("phone", phone)])]
  | .sendEmail sender receiver =>
      .obj [("type", .str "send_email"),
            ("params", .obj [("sender", sender), ("receiver", receiver)])]
  | .condition expression t f =>
      .obj [("type", .str "condition"),
            ("params", .obj [("expression", expression)]),
            ("trueAction", t.toJSON),
            ("falseAction", match f with | some fa => fa.toJSON | none => .undefined)]
  | .loop iterations body =>
      .obj [("type", .str "loop"),
            ("params", .obj [("iterations", iterations)]),
            ("action", body.toJSON)]
  | .sequence actions => .obj [("type", .str "sequence"), ("actions", .arr (toJSONList actions))]

/-- `actions.map(a => a.toJSON())` of `SequenceAction.toJSON`. -/
def toJSONList : List Action → List JValue
  | [] => []
  | a :: rest => a.toJSON :: toJSONList rest

end

mutual

/-- `ActionFactory.createAction` together with the five factory closures
installed by the `ActionFactory.register` calls of the source.  The guard
mirrors `if (!json || !json.type) throw ...`; registry lookup is modelled
at the level of the TypeScript index-signature type, so a key other than
the five registered tags yields the unknown-action-type error; each arm is
the body of the corresponding registered closure (`propAccess` marks the
property reads where a missing `params` makes JavaScript throw a
`TypeError`). -/
def createAction (json : JValue) : Except DTError Action :=
  if h : (jsTruthy json && jsTruthy (getProp json "type")) = true then
    match jsToString (getProp json "type") with
    | "send_sms" =>
        match propAccess (getProp json "params") "phone" with
        | .error e => .error e
        | .ok phone => .ok (.sendSms phone)
    | "send_email" =>
        match propAccess (getProp json "params") "sender" with
        | .error e => .error e
        | .ok sender =>
          match propAccess (getProp json "params") "receiver" with
          | .error e => .error e
          | .ok receiver => .ok (.sendEmail sender receiver)
    | "condition" =>
        match propAccess (getProp json "params") "expression" with
        | .error e => .error e
        | .ok expression =>
          match createAction (getProp json "trueAction") with
          | .error e => .error e
          | .ok t =>
            if jsTruthy (getProp json "falseAction") then
              match createAction (getProp json "falseAction") with
              | .error e => .error e
              | .ok f => .ok (.condition expression t (some f))
            else .ok (.condition expression t none)
    | "loop" =>
        match propAccess (getProp json "params") "iterations" with
        | .error e => .error e
        | .ok iterations =>
          match createAction (getProp json "action") with
          | .error e => .error e
          | .ok body => .ok (.loop iterations body)
    | "sequence" =>
        match h3 : getProp json "actions" with
        | .arr xs =>
            match mapCreate xs with
            | .error e => .error e
            | .ok actions => .ok (.sequence actions)
        | .undefined => .error (.typeError "Cannot read properties of undefined (reading map)")
        | .null => .error (.typeError "Cannot read properties of null (reading map)")
        | _ => .error (.typeError "json.actions.map is not a function")
    | t => .error (.unknownActionType ("Unknown action type: " ++ t))
  else .error (.malformedNode "Invalid JSON: missing type property.")
termination_by sizeOf json
decreasing_by
  all_goals
    simp only [Bool.and_eq_true] at h
    have key : ∀ (v : JValue) (k : String), jsTruthy (getProp v "type") = true →
        sizeOf (getProp v k) < sizeOf v := by
      intro v k hv
      cases v
      case obj fs =>
        have hlf : ∀ (gs : List (String × JValue)) (key : String),
            sizeOf (lookupField gs key) < 1 + sizeOf gs := by
          intro gs key
          induction gs with
          | nil => simp [lookupField]
          | cons p rest ih =>
              obtain ⟨k1, v1⟩ := p
              simp only [lookupField]
              split
              · simp only [List.cons.sizeOf_spec, Prod.mk.sizeOf_spec]
                omega
              · simp only [List.cons.sizeOf_spec, Prod.mk.sizeOf_spec]
                omega
        have := hlf fs k
        simp only [getProp, JValue.obj.sizeOf_spec]
        omega
      all_goals simp [getProp, jsTruthy] at hv
    first
      | exact key json _ h.2
      | (have hlt := key json "actions" h.2
         rw [h3] at hlt
         simp only [JValue.arr.sizeOf_spec] at hlt
         omega)

/-- `json.actions.map((actionJson) => ActionFactory.createAction(actionJson))`
of the registered sequence factory. -/
def mapCreate (xs : List JValue) : Except DTError (List Action) :=
  match xs with
  | [] => .ok []
  | x :: rest =>
      match createAction x with
      | .error e => .error e
      | .ok a =>
        match mapCreate rest with
        | .error e => .error e
        | .ok as => .ok (a :: as)
termination_by sizeOf xs
decreasing_by
  all_goals simp only [List.cons.sizeOf_spec]
  all_goals omega

end

/-- One observable step of an execution: each constructor stands for one
`console.log`/`console.error` call of the source.  `sms` and `email` are the
simulated message deliveries (the side effects), `evalError` is the
`console.error` in the catch of `ConditionAction.execute`, `condEval` the
"evaluated to" log, `loopStart`/`loopIterLog` the two logs of
`LoopAction.execute`, `seqStart` the log of `SequenceAction.execute`, and
`boundaryError` the `console.error` of
`DecisionTreeService.processDecisionTree`. -/
inductive Event where
  | sms : JValue → Event
  | email : JValue → JValue → Event
  | evalError : JValue → Event
  | condEval : JValue → Bool → Event
  | loopStart : JValue → Event
  | loopIterLog : Nat → Event
  | seqStart : Nat → Event
  | boundaryError : DTError → Event

/-- The simulated deliveries among the events (the spec's side effects). -/
def Event.isSideEffect : Event → Bool
  | .sms _ => true
  | .email _ _ => true
  | _ => false

/-- `context || {}` of `ConditionAction.execute`. -/
def orElseEmpty (context : JValue) : JValue :=
  if jsTruthy context then context else .obj []

/-- The `for (let i = 0; i < this.iterations; i++)` loop of
`LoopAction.execute`: while `i` is below the (numerically coerced) bound it
logs `Iteration i+1` and replays the body trace, then advances `i`.  A
`NaN` bound is handled by the caller (the comparison is false, so the loop
body never runs). -/
def loopEvents (bodyTrace : List Event) (bound : Int) (i : Nat) : List Event :=
  if (i : Int) < bound then
    .loopIterLog (i + 1) :: (bodyTrace ++ loopEvents bodyTrace bound (i + 1))
  else []
termination_by (bound - i).toNat
decreasing_by
  omega

mutual

/-- The `execute` methods of the five action classes as a trace semantics.
`evalE` is the external condition-expression evaluator
(`new Function("context", ...)` applied to `context || {}` in the source):
`none` models the evaluation throwing, `some v` a normal result that the
source coerces with `Boolean(...)`.  The loop body trace is computed once
and replayed, which agrees with the source because `execute` is pure in
this embedding. -/
def execute (evalE : JValue → JValue → Option JValue) (a : Action) (context : JValue) :
    List Event :=
  match a with
  | .sendSms phone => [.sms phone]
  | .sendEmail sender receiver => [.email sender receiver]
  | .condition expression t f =>
      match evalE expression (orElseEmpty context) with
      | some v =>
          .condEval expression (jsTruthy v) ::
            (if jsTruthy v then execute evalE t context
             else executeFalse evalE f context)
      | none =>
          .evalError expression :: .condEval expression false ::
            executeFalse evalE f context
  | .loop iterations body =>
      .loopStart iterations ::
        (match toNumber iterations with
         | some n => loopEvents (execute evalE body context) n 0
         | none => [])
  | .sequence actions => .seqStart actions.length :: executeList evalE actions context

/-- The false branch of `ConditionAction.execute`:
`else if (this.falseAction) { this.falseAction.execute(context); }` —
runs the optional `falseAction` when present, otherwise does nothing. -/
def executeFalse (evalE : JValue → JValue → Option JValue) (f : Option Action)
    (context : JValue) : List Event :=
  match f with
  | some fa => execute evalE fa context
  | none => []

/-- The `for (const action of this.actions)` loop of
`SequenceAction.execute`. -/
def executeList (evalE : JValue → JValue → Option JValue) (as : List Action)
    (context : JValue) : List Event :=
  match as with
  | [] => []
  | a :: rest => execute evalE a context ++ executeList evalE rest context

end

/-- `DecisionTreeService.processDecisionTree`: deserialize then execute; the
`try`/`catch` turns any error thrown during deserialization into a single
`console.error` report and the call returns normally. -/
def processDecisionTree (evalE : JValue → JValue → Option JValue) (json : JValue)
    (context : JValue) : List Event :=
  match createAction json with
  | .ok a => execute evalE a context
  | .error e => [.boundaryError e]

/-- Whether a factory result failed with the explicit missing-type error of
`ActionFactory.createAction` (the specification's `MalformedNodeError`). -/
def isMalformedResult : Except DTError Action → Bool
  | .error (.malformedNode _) => true
  | _ => false

/-- The five type tags installed by the `ActionFactory.register` calls of
the source module. -/
def registeredTypes : List String :=
  ["send_sms", "send_email", "condition", "loop", "sequence"]

@[simp] theorem jsTruthy_undef : jsTruthy .undefined = false := rfl

@[simp] theorem jsTruthy_null : jsTruthy .null = false := rfl

@[simp] theorem jsTruthy_bool (b : Bool) : jsTruthy (.bool b) = b := rfl

@[simp] theorem jsTruthy_num (n : Int) : jsTruthy (.num n) = (n != 0) := rfl

@[simp] theorem jsTruthy_str (s : String) : jsTruthy (.str s) = (s != "") := rfl

@[simp] theorem jsTruthy_arr (xs : List JValue) : jsTruthy (.arr xs) = true := rfl

@[simp] theorem jsTruthy_obj (fs : List (String × JValue)) : jsTruthy (.obj fs) = true := rfl

@[simp] theorem toJSON_sendSms (phone : JValue) :
    (Action.sendSms phone).toJSON =
      .obj [("type", .str "send_sms"), ("params", .obj [("phone", phone)])] := by
  rw [Action.toJSON.eq_def]

@[simp] theorem toJSON_sendEmail (sender receiver : JValue) :
    (Action.sendEmail sender receiver).toJSON =
      .obj [("type", .str "send_email"),
            ("params", .obj [("sender", sender), ("receiver", receiver)])] := by
  rw [Action.toJSON.eq_def]

@[simp] theorem toJSON_condition (e : JValue) (t : Action) (f : Option Action) :
    (Action.condition e t f).toJSON =
      .obj [("type", .str "condition"),
            ("params", .obj [("expression", e)]),
            ("trueAction", t.toJSON),
            ("falseAction", match f with | some fa => fa.toJSON | none => .undefined)] := by
  rw [Action.toJSON.eq_def]

@[simp] theorem toJSON_loop (iterations : JValue) (body : Action) :
    (Action.loop iterations body).toJSON =
      .obj [("type", .str "loop"),
            ("params", .obj [("iterations", iterations)]),
            ("action", body.toJSON)] := by
  rw [Action.toJSON.eq_def]

@[simp] theorem toJSON_sequence (as : List Action) :
    (Action.sequence as).toJSON =
      .obj [("type", .str "sequence"), ("actions", .arr (toJSONList as))] := by
  rw [Action.toJSON.eq_def]

@[simp] theorem jsTruthy_toJSON (a : Action) : jsTruthy a.toJSON = true := by
  cases a <;> simp

theorem mapCreate_toJSONList (as : List Action)
    (h : ∀ a ∈ as, createAction a.toJSON = .ok a) :
    mapCreate (toJSONList as) = .ok as := by
  induction as with
  | nil => simp [toJSONList, mapCreate]
  | cons a rest ih =>
      have ha := h a (List.mem_cons_self a rest)
      have hrest := ih (fun x hx => h x (List.mem_cons_of_mem a hx))
      simp only [toJSONList]
      simp [mapCreate, ha, hrest]

theorem createAction_toJSON : ∀ (a : Action), createAction a.toJSON = .ok a
  | .sendSms p => by
      rw [toJSON_sendSms, createAction.eq_def]
      simp [getProp, lookupField, jsToString, propAccess]
  | .sendEmail s r => by
      rw [toJSON_sendEmail, createAction.eq_def]
      simp [getProp, lookupField, jsToString, propAccess]
  | .condition e t (some fa) => by
      have iht := createAction_toJSON t
      have ihf := createAction_toJSON fa
      rw [toJSON_condition, createAction.eq_def]
      simp [getProp, lookupField, jsToString, propAccess, iht, ihf]
  | .condition e t none => by
      have iht := createAction_toJSON t
      rw [toJSON_condition, createAction.eq_def]
      simp [getProp, lookupField, jsToString, propAccess, iht]
  | .loop its b => by
      have ihb := createAction_toJSON b
      rw [toJSON_loop, createAction.eq_def]
      simp [getProp, lookupField, jsToString, propAccess, ihb]
  | .sequence as => by
      have ih := mapCreate_toJSONList as (fun a ha => createAction_toJSON a)
      rw [toJSON_sequence, createAction.eq_def]
      simp [getProp, lookupField, jsToString, ih]
termination_by a => sizeOf a

@[simp] theorem execute_sendSms (evalE : JValue → JValue → Option JValue)
    (phone ctx : JValue) : execute evalE (.sendSms phone) ctx = [.sms phone] := by
  rw [execute.eq_def]

@[simp] theorem execute_sendEmail (evalE : JValue → JValue → Option JValue)
    (s r ctx : JValue) : execute evalE (.sendEmail s r) ctx = [.email s r] := by
  rw [execute.eq_def]

theorem execute_condition (evalE : JValue → JValue → Option JValue) (e : JValue)
    (t : Action) (f : Option Action) (ctx : JValue) :
    execute evalE (.condition e t f) ctx =
      match evalE e (orElseEmpty ctx) with
      | some v =>
          .condEval e (jsTruthy v) ::
            (if jsTruthy v then execute evalE t ctx else executeFalse evalE f ctx)
      | none => .evalError e :: .condEval e false :: executeFalse evalE f ctx := by
  rw [execute.eq_def]

@[simp] theorem executeFalse_some (evalE : JValue → JValue → Option JValue) (fa : Action)
    (ctx : JValue) : executeFalse evalE (some fa) ctx = execute evalE fa ctx := by
  rw [executeFalse.eq_def]

@[simp] theorem executeFalse_none (evalE : JValue → JValue → Option JValue) (ctx : JValue) :
    executeFalse evalE none ctx = [] := by
  rw [executeFalse.eq_def]

@[simp] theorem execute_loop (evalE : JValue → JValue → Option JValue) (its : JValue)
    (body : Action) (ctx : JValue) :
    execute evalE (.loop its body) ctx =
      .loopStart its ::
        (match toNumber its with
         | some n => loopEvents (execute evalE body ctx) n 0
         | none => []) := by
  rw [execute.eq_def]

@[simp] theorem execute_sequence (evalE : JValue → JValue → Option JValue)
    (as : List Action) (ctx : JValue) :
    execute evalE (.sequence as) ctx = .seqStart as.length :: executeList evalE as ctx := by
  rw [execute.eq_def]

@[simp] theorem executeList_nil (evalE : JValue → JValue → Option JValue) (ctx : JValue) :
    executeList evalE [] ctx = [] := by
  rw [executeList.eq_def]

@[simp] theorem executeList_cons (evalE : JValue → JValue → Option JValue) (a : Action)
    (rest : List Action) (ctx : JValue) :
    executeList evalE (a :: rest) ctx = execute evalE a ctx ++ executeList evalE rest ctx := by
  rw [executeList.eq_def]

theorem executeList_append (evalE : JValue → JValue → Option JValue) (as bs : List Action)
    (ctx : JValue) :
    executeList evalE (as ++ bs) ctx = executeList evalE as ctx ++ executeList evalE bs ctx := by
  induction as with
  | nil => simp
  | cons a rest ih => simp [ih]

theorem loopEvents_eq (tr : List Event) (k : Nat) :
    ∀ (i : Nat) (n : Int), n = (i : Int) + k →
      loopEvents tr n i =
        ((List.range' i k).map (fun j => Event.loopIterLog (j + 1) :: tr)).flatten := by
  induction k with
  | zero =>
      intro i n hn
      rw [loopEvents.eq_def, if_neg (by omega)]
      simp
  | succ k ih =>
      intro i n hn
      rw [loopEvents.eq_def, if_pos (by omega)]
      rw [ih (i + 1) n (by push_cast; omega)]
      simp [List.range'_succ]

/-- C1: Round-trip law — for every constructible Action `a`,
`ActionFactory.createAction (a.toJSON)` succeeds and yields an Action whose
`toJSON` output is identical to `a.toJSON`. -/
theorem roundtrip_serialization (a : Action) :
    ∃ a' : Action, createAction a.toJSON = .ok a' ∧ a'.toJSON = a.toJSON :=
  ⟨a, createAction_toJSON a, rfl⟩

/-- C3: if evaluating a condition expression fails (the evaluator throws),
`ConditionAction.execute` records the evaluation error, treats the result
as `false`, executes the `falseAction` when present (otherwise only the
logs occur), and the failure never propagates: the trace is exactly the
recovery events followed by the false branch. -/
theorem condition_eval_error_recovery (evalE : JValue → JValue → Option JValue)
    (e : JValue) (t : Action) (f : Option Action) (ctx : JValue)
    (hfail : evalE e (orElseEmpty ctx) = none) :
    execute evalE (.condition e t f) ctx =
      .evalError e :: .condEval e false :: executeFalse evalE f ctx := by
  rw [execute_condition, hfail]

/-- Witness for C3 at a concrete failing expression with a present
`falseAction`. -/
theorem condition_eval_error_recovery_witness :
    (fun (_ _ : JValue) => (none : Option JValue)) (.str "syntaxError(") (orElseEmpty .undefined)
        = none ∧
      execute (fun _ _ => none)
          (.condition (.str "syntaxError(") (.sendSms (.str "t"))
            (some (.sendSms (.str "f")))) .undefined =
        .evalError (.str "syntaxError(") :: .condEval (.str "syntaxError(") false ::
          executeFalse (fun _ _ => none) (some (.sendSms (.str "f"))) .undefined :=
  ⟨rfl, condition_eval_error_recovery _ _ _ _ _ rfl⟩

/-- C8: when the condition expression evaluates without error, the result
is coerced to a boolean; a truthy result executes `trueAction` (and not the
false branch), a falsy result executes `falseAction` when present and
nothing when absent. -/
theorem condition_branches_on_truthiness (evalE : JValue → JValue → Option JValue)
    (e : JValue) (t : Action) (f : Option Action) (ctx : JValue) (v : JValue)
    (heval : evalE e (orElseEmpty ctx) = some v) :
    execute evalE (.condition e t f) ctx =
      .condEval e (jsTruthy v) ::
        (if jsTruthy v then execute evalE t ctx else executeFalse evalE f ctx) := by
  rw [execute_condition, heval]

/-- Witness for C8 at a concrete truthy evaluation. -/
theorem condition_branches_on_truthiness_witness :
    (fun (_ _ : JValue) => (some (JValue.bool true) : Option JValue)) (.str "x")
        (orElseEmpty .undefined) = some (.bool true) ∧
      execute (fun _ _ => some (.bool true))
          (.condition (.str "x") (.sendSms (.str "t")) (some (.sendSms (.str "f")))) .undefined =
        .condEval (.str "x") (jsTruthy (.bool true)) ::
          (if jsTruthy (.bool true) then
            execute (fun _ _ => some (.bool true)) (.sendSms (.str "t")) .undefined
           else executeFalse (fun _ _ => some (.bool true))
                  (some (.sendSms (.str "f"))) .undefined) :=
  ⟨rfl, condition_branches_on_truthiness _ _ _ _ _ _ rfl⟩

/-- C7: a loop with non-negative integer count `n` executes its body
exactly `n` times, sequentially in ascending iteration order, passing the
same context to every iteration: the trace is the start log followed by
`n` copies of (iteration log, body trace) for iterations `1..n`. -/
theorem loop_executes_count_times (evalE : JValue → JValue → Option JValue)
    (n : Int) (body : Action) (ctx : JValue) (h : 0 ≤ n) :
    execute evalE (.loop (.num n) body) ctx =
      .loopStart (.num n) ::
        ((List.range n.toNat).map
          (fun i => Event.loopIterLog (i + 1) :: execute evalE body ctx)).flatten := by
  rw [execute_loop]
  simp only [toNumber]
  rw [loopEvents_eq (execute evalE body ctx) n.toNat 0 n (by omega), List.range_eq_range']

/-- Witness for C7 at count 3. -/
theorem loop_executes_count_times_witness :
    0 ≤ (3 : Int) ∧
      execute (fun _ _ => none) (.loop (.num 3) (.sendSms (.str "p"))) .undefined =
        .loopStart (.num 3) ::
          ((List.range (3 : Int).toNat).map
            (fun i => Event.loopIterLog (i + 1) ::
              execute (fun _ _ => none) (.sendSms (.str "p")) .undefined)).flatten :=
  ⟨by decide, loop_executes_count_times _ 3 _ _ (by decide)⟩

/-- C10: a loop whose `iterations` is zero or negative performs zero
invocations of the body and raises no error — only the start log occurs. -/
theorem loop_nonpositive_iterations_noop (evalE : JValue → JValue → Option JValue)
    (n : Int) (body : Action) (ctx : JValue) (h : n ≤ 0) :
    execute evalE (.loop (.num n) body) ctx = [.loopStart (.num n)] := by
  rw [execute_loop]
  simp only [toNumber]
  rw [loopEvents.eq_def, if_neg (by omega)]

/-- Witness for C10 at count -5. -/
theorem loop_nonpositive_iterations_noop_witness :
    (-5 : Int) ≤ 0 ∧
      execute (fun _ _ => none) (.loop (.num (-5)) (.sendSms (.str "p"))) .undefined =
        [.loopStart (.num (-5))] :=
  ⟨by decide, loop_nonpositive_iterations_noop _ _ _ _ (by decide)⟩

/-- C2: `SequenceAction.execute` runs its steps strictly in list order with
the same context (the sequence trace is the header followed by the
concatenation of the step traces, and concatenation respects list append);
and when a step fails during its execution — in this code base the errors
a step can raise during execution are condition-expression evaluation
failures, which the step absorbs locally — the subsequent steps still
execute: a sequence around a failing condition runs the following step in
full. -/
theorem sequence_order_best_effort :
    (∀ (evalE : JValue → JValue → Option JValue) (ctx : JValue) (as : List Action),
        execute evalE (.sequence as) ctx = .seqStart as.length :: executeList evalE as ctx) ∧
    (∀ (evalE : JValue → JValue → Option JValue) (ctx : JValue) (as bs : List Action),
        executeList evalE (as ++ bs) ctx =
          executeList evalE as ctx ++ executeList evalE bs ctx) ∧
    (∀ (evalE : JValue → JValue → Option JValue) (ctx : JValue) (a1 a3 t : Action)
        (f : Option Action) (e : JValue), evalE e (orElseEmpty ctx) = none →
        execute evalE (.sequence [a1, .condition e t f, a3]) ctx =
          .seqStart 3 ::
            (execute evalE a1 ctx ++
              (.evalError e :: .condEval e false :: executeFalse evalE f ctx) ++
              execute evalE a3 ctx)) := by
  refine ⟨fun evalE ctx as => execute_sequence evalE as ctx,
          fun evalE ctx as bs => executeList_append evalE as bs ctx,
          fun evalE ctx a1 a3 t f e hfail => ?_⟩
  rw [execute_sequence]
  simp only [executeList_cons, executeList_nil,
    condition_eval_error_recovery evalE e t f ctx hfail, List.length_cons, List.length_nil]
  simp [List.append_assoc]

/-- Witness for C2: a three-step sequence whose middle step is a condition
with a failing expression still runs the third step. -/
theorem sequence_order_best_effort_witness :
    execute (fun _ _ => none)
        (.sequence [.sendSms (.str "1"),
          .condition (.str "b(") (.sendSms (.str "t")) none,
          .sendSms (.str "3")]) .null =
      [.seqStart 3, .sms (.str "1"), .evalError (.str "b("),
        .condEval (.str "b(") false, .sms (.str "3")] := by
  have h := sequence_order_best_effort.2.2 (fun _ _ => none) .null (.sendSms (.str "1"))
    (.sendSms (.str "3")) (.sendSms (.str "t")) none (.str "b(") rfl
  simpa using h

/-- C4: `DecisionTreeService.processDecisionTree` catches every error
raised during deserialization at its boundary and reports it as the single
structured failure record carrying the error (no exception escapes, and no
side effect is performed); in particular the malformed input of an empty
object (no type field) is reported as the missing-type
`MalformedNodeError` with no side effects. -/
theorem process_boundary_reports_failure :
    (∀ (evalE : JValue → JValue → Option JValue) (json ctx : JValue) (e : DTError),
        createAction json = .error e →
          processDecisionTree evalE json ctx = [.boundaryError e] ∧
          (processDecisionTree evalE json ctx).filter (fun ev => ev.isSideEffect) = []) ∧
    (∀ (evalE : JValue → JValue → Option JValue) (ctx : JValue),
        processDecisionTree evalE (.obj []) ctx =
          [.boundaryError (.malformedNode "Invalid JSON: missing type property.")]) := by
  have hmal : createAction (.obj []) =
      .error (.malformedNode "Invalid JSON: missing type property.") := by
    rw [createAction.eq_def]
    simp [getProp, lookupField]
  refine ⟨fun evalE json ctx e he => ?_, fun evalE ctx => ?_⟩
  · constructor
    · simp [processDecisionTree, he]
    · simp [processDecisionTree, he, Event.isSideEffect]
  · simp [processDecisionTree, hmal]

/-- Witness for C4 at the empty-object input. -/
theorem process_boundary_reports_failure_witness :
    createAction (.obj []) =
        .error (.malformedNode "Invalid JSON: missing type property.") ∧
      processDecisionTree (fun _ _ => none) (.obj []) .undefined =
        [.boundaryError (.malformedNode "Invalid JSON: missing type property.")] := by
  have h1 : createAction (.obj []) =
      .error (.malformedNode "Invalid JSON: missing type property.") := by
    rw [createAction.eq_def]
    simp [getProp, lookupField]
  exact ⟨h1, (process_boundary_reports_failure.1 (fun _ _ => none) _ .undefined _ h1).1⟩

/-- C5: `ActionFactory.createAction` fails with the missing-type
`MalformedNodeError` exactly when the node or its type field is falsy
(absent nodes and absent type fields are falsy); fails with
`UnknownActionTypeError` when the (string-coerced) type has no registered
builder; and otherwise invokes the registered builder for the type and
returns the Action that builder constructs (shown for the leaf builders on
their wire shapes and for every builder on serialized children). -/
theorem createAction_dispatch_spec :
    (∀ json : JValue, (jsTruthy json && jsTruthy (getProp json "type")) = false →
        createAction json = .error (.malformedNode "Invalid JSON: missing type property.")) ∧
    (∀ json : JValue, (jsTruthy json && jsTruthy (getProp json "type")) = true →
        jsToString (getProp json "type") ∉ registeredTypes →
        createAction json =
          .error (.unknownActionType
            ("Unknown action type: " ++ jsToString (getProp json "type")))) ∧
    (∀ phone : JValue,
        createAction (.obj [("type", .str "send_sms"), ("params", .obj [("phone", phone)])]) =
          .ok (.sendSms phone)) ∧
    (∀ sender receiver : JValue,
        createAction (.obj [("type", .str "send_email"),
            ("params", .obj [("sender", sender), ("receiver", receiver)])]) =
          .ok (.sendEmail sender receiver)) ∧
    (∀ a : Action, createAction a.toJSON = .ok a) := by
  refine ⟨fun json h => ?_, fun json h1 h2 => ?_, fun phone => ?_, fun s r => ?_,
    createAction_toJSON⟩
  · rw [createAction.eq_def, dif_neg (by simp [h])]
  · rw [createAction.eq_def, dif_pos h1]
    simp only [registeredTypes, List.mem_cons, List.not_mem_nil, or_false, not_or] at h2
    obtain ⟨n1, n2, n3, n4, n5⟩ := h2
    split
    · exact absurd (by assumption) n1
    · exact absurd (by assumption) n2
    · exact absurd (by assumption) n3
    · exact absurd (by assumption) n4
    · exact absurd (by assumption) n5
    · rfl
  · rw [createAction.eq_def]
    simp [getProp, lookupField, jsToString, propAccess]
  · rw [createAction.eq_def]
    simp [getProp, lookupField, jsToString, propAccess]

/-- Witness for C5: the unregistered tag bogus is rejected with the
unknown-action-type error. -/
theorem createAction_dispatch_spec_witness :
    (jsTruthy (JValue.obj [("type", .str "bogus")]) &&
        jsTruthy (getProp (JValue.obj [("type", .str "bogus")]) "type")) = true ∧
      jsToString (getProp (JValue.obj [("type", .str "bogus")]) "type") ∉ registeredTypes ∧
      createAction (.obj [("type", .str "bogus")]) =
        .error (.unknownActionType ("Unknown action type: " ++
          jsToString (getProp (JValue.obj [("type", .str "bogus")]) "type"))) := by
  have hb : (jsTruthy (JValue.obj [("type", .str "bogus")]) &&
      jsTruthy (getProp (JValue.obj [("type", .str "bogus")]) "type")) = true := by
    simp [getProp, lookupField]
  have hm : jsToString (getProp (JValue.obj [("type", .str "bogus")]) "type")
      ∉ registeredTypes := by
    simp [getProp, lookupField, jsToString, registeredTypes]
  exact ⟨hb, hm, createAction_dispatch_spec.2.1 _ hb hm⟩

/-- C6 counterexample: for the registered type send_sms with a missing
params field, `createAction` does not fail with the malformed-node error —
it fails with the native TypeError raised by reading `phone` of
`undefined`. -/
theorem missing_params_not_malformed_cex :
    createAction (.obj [("type", .str "send_sms")]) =
        .error (.typeError "Cannot read properties of undefined (reading phone)") ∧
      isMalformedResult (createAction (.obj [("type", .str "send_sms")])) = false := by
  have h : createAction (.obj [("type", .str "send_sms")]) =
      .error (.typeError "Cannot read properties of undefined (reading phone)") := by
    rw [createAction.eq_def]
    simp [getProp, lookupField, jsToString, propAccess]
  exact ⟨h, by rw [h]; rfl⟩

/-- C6 (amended): a registered-type node missing its required params field
makes `createAction` fail — with the native TypeError from the property
read on `undefined`, not with the dedicated malformed-node error — and
that error is surfaced at the run boundary as the single failure record of
that run (shown for the send_sms and loop factories). -/
theorem missing_params_typeerror_surfaced (evalE : JValue → JValue → Option JValue)
    (ctx : JValue) :
    createAction (.obj [("type", .str "send_sms")]) =
        .error (.typeError "Cannot read properties of undefined (reading phone)") ∧
      processDecisionTree evalE (.obj [("type", .str "send_sms")]) ctx =
        [.boundaryError (.typeError "Cannot read properties of undefined (reading phone)")] ∧
      createAction (.obj [("type", .str "loop")]) =
        .error (.typeError "Cannot read properties of undefined (reading iterations)") := by
  have h1 : createAction (.obj [("type", .str "send_sms")]) =
      .error (.typeError "Cannot read properties of undefined (reading phone)") := by
    rw [createAction.eq_def]
    simp [getProp, lookupField, jsToString, propAccess]
  have h2 : createAction (.obj [("type", .str "loop")]) =
      .error (.typeError "Cannot read properties of undefined (reading iterations)") := by
    rw [createAction.eq_def]
    simp [getProp, lookupField, jsToString, propAccess]
  exact ⟨h1, by simp [processDecisionTree, h1], h2⟩

/-- C9 counterexample: the registered loop factory accepts a wire node
whose iterations is the negative number -3 and constructs the
corresponding LoopAction, so constructed loops are not restricted to
non-negative counts. -/
theorem loop_negative_iterations_cex :
    createAction (.obj [("type", .str "loop"),
        ("params", .obj [("iterations", .num (-3))]),
        ("action", .obj [("type", .str "send_sms"), ("params", .obj [("phone", .str "p")])])]) =
      .ok (.loop (.num (-3)) (.sendSms (.str "p"))) ∧ (-3 : Int) < 0 := by
  constructor
  · rw [createAction.eq_def]
    simp [createAction, getProp, lookupField, jsToString, propAccess]
  · decide

/-- C9 (amended): the loop factory performs no validation of
`params.iterations` — for every value `its` (negative numbers included) it
constructs the LoopAction carrying `its` unchanged. -/
theorem loop_factory_accepts_any_iterations (its : JValue) (b : Action) :
    createAction (.obj [("type", .str "loop"),
        ("params", .obj [("iterations", its)]), ("action", b.toJSON)]) =
      .ok (.loop its b) := by
  rw [createAction.eq_def]
  simp [getProp, lookupField, jsToString, propAccess, createAction_toJSON b]

end DecisionTree
